import Mathlib

/-!
# GMaps Exports Filtering — verification of the functional core

Shallow embedding of the two Python sources (`app.py`, the Streamlit web
flow, and `LOCAL_gmaps_file_cleaner.py`, the desktop flow): per-category
classification of Google-Maps business categories against a target
keyword, the rating pre-filter, the merge of per-category booleans back
onto rows, manual category selection, and CSV/zip export batching.

Tables are lists of rows; pandas cells that may be missing or
non-numeric are `Option` values; machine calls to the classification API
are an `ApiResponse` environment passed in explicitly.
-/

namespace GMapsCleaner

/-! ## Python string primitives used by `classify_category`

`reply.strip().lower()` followed by `"yes" in reply` from
`classify_category` (app.py lines 77-79, local file lines 48-50). -/

/-- The whitespace characters removed by Python `str.strip()` (ASCII range). -/
def pySpaceChars : List Char := [' ', '\t', '\n', '\r', '\x0b', '\x0c']

/-- Whether a character is stripped by `str.strip()`. -/
def pySpace (c : Char) : Bool := pySpaceChars.contains c

/-- ASCII case folding of one character, as Python `str.lower()` does on ASCII. -/
def toLowerChar (c : Char) : Char :=
  if 'A' ≤ c ∧ c ≤ 'Z' then Char.ofNat (c.toNat + 32) else c

/-- Python `str.lower()` on a string viewed as a list of characters. -/
def pyLower (s : List Char) : List Char := s.map toLowerChar

/-- Python `str.strip()`: drop leading whitespace, then trailing whitespace. -/
def pyStrip (s : List Char) : List Char :=
  ((s.dropWhile pySpace).reverse.dropWhile pySpace).reverse

/-- The token searched for in the model reply: `"yes" in reply`. -/
def yesToken : List Char := ['y', 'e', 's']

/-! ## Classification (`classify_category`, `run_classification`) -/

/-- The body the classification endpoint answers with: either a JSON body
with a choice containing reply text (`ok`), a JSON body with no choices,
i.e. an API-level error payload (`apiError`), or a raised
transport/HTTP exception (`transportError`). -/
inductive ApiResponse where
  | ok (reply : List Char)
  | apiError (msg : List Char)
  | transportError (msg : List Char)
deriving DecidableEq

/-- `classify_category` (app.py lines 57-82 / local lines 28-53): on a
normal body it strips and lower-cases the reply and tests `"yes" in reply`;
on an error payload it returns `(category, False, "error_api")`; on a
raised exception it returns `(category, False, "error")`. -/
def classify_category (category : String) (resp : ApiResponse) :
    String × Bool × List Char :=
  match resp with
  | ApiResponse.ok replyRaw =>
      (category, decide (yesToken <:+: pyLower (pyStrip replyRaw)),
        pyLower (pyStrip replyRaw))
  | ApiResponse.apiError _ => (category, false, "error_api".toList)
  | ApiResponse.transportError _ => (category, false, "error".toList)

/-- `run_classification` (app.py lines 229-242; local lines 219-226): the
results dictionary collects, for every unique category, only the boolean
`is_relevant` component of `classify_category`'s triple
(`results[cat] = is_relevant`). The dictionary content is keyed by
category, so it does not depend on completion order; we materialize it in
category-list order. -/
def run_classification (categories : List String)
    (respond : String → ApiResponse) : List (String × Bool) :=
  categories.map (fun cat => (cat, (classify_category cat (respond cat)).2.1))

/-! ## Tables and rows -/

/-- One row of the uploaded table: the `category` cell (missing = `none`),
the `rating` and `ratingCount` cells (`none` = missing or non-numeric, the
values `pd.to_numeric(col, errors=\x27coerce\x27)` turns into NaN), and an
opaque payload standing for all remaining columns. -/
structure Row where
  category : Option String
  rating : Option ℚ
  ratingCount : Option ℚ
  payload : Nat
deriving DecidableEq

/-- `pd.to_numeric(col, errors=\x27coerce\x27).fillna(0)` on one cell:
a numeric cell keeps its value, anything else becomes 0. -/
def coerceNum (v : Option ℚ) : ℚ := v.getD 0

/-- The rating pre-filter (app.py lines 189-192): when `min_rating > 0`
keep rows whose coerced rating is `>= min_rating`, then when
`min_rating_count > 0` keep rows whose coerced rating count is
`>= min_rating_count`. -/
def preFilter (minRating minRatingCount : ℚ) (df : List Row) : List Row :=
  let df1 :=
    if 0 < minRating then
      df.filter (fun r => minRating ≤ coerceNum r.rating)
    else df
  if 0 < minRatingCount then
    df1.filter (fun r => minRatingCount ≤ coerceNum r.ratingCount)
  else df1

/-! ## Merge of per-category results onto rows -/

/-- The derived column `df[result_col_name] = df[CATEGORY_COL].map(results)`
(app.py line 249, local line 230): a row with a present category mapped by
the results dictionary gets that boolean; a missing or unmapped category
gets NaN, modelled as `none`. -/
def deriveRelevance (results : List (String × Bool)) (r : Row) : Option Bool :=
  r.category.bind (fun c => results.lookup c)

/-- `relevant_df = df[df[result_col_name] == True]` (app.py line 251, local
line 232): keep exactly the rows whose derived cell equals `True`. -/
def aiRelevantSubset (results : List (String × Bool)) (df : List Row) :
    List Row :=
  df.filter (fun r => deriveRelevance results r == some true)

/-! ## Manual selection -/

/-- The initial value of one category checkbox in the web flow
(app.py line 291): `st.session_state.get(key, True)` — the stored value if
the key exists, `True` otherwise. -/
def checkboxInit (sessionState : String → Option Bool) (cat : String) : Bool :=
  (sessionState cat).getD true

/-- The session state when refinement first renders: no `cb_...` key is
present (the checkbox widgets have not existed before this run), so every
lookup misses and the `.get` default applies. -/
def freshSessionState : String → Option Bool := fun _ => none

/-- The initial checkbox mapping of the local `CategorySelector.__init__`
(local lines 110-115): every candidate category gets
`tk.BooleanVar(value=False)`. -/
def categorySelectorInit (categories : List String) : List (String × Bool) :=
  categories.map (fun c => (c, false))

/-- `df[CATEGORY_COL].isin(selected)` on one row: a present category tests
membership in the selected list, a missing category is never in it. -/
def isinSelected (selected : List String) (r : Row) : Bool :=
  match r.category with
  | some c => selected.contains c
  | none => false

/-- The local finalization (local lines 238-246): with a non-empty manual
selection, keep the rows of the AI-relevant subset whose category was
selected; with an empty selection, `relevant_df` is replaced by an
explicit empty DataFrame, and the subsequent `to_csv` export runs on it. -/
def finalizeLocal (selected : List String) (relevantDf : List Row) : List Row :=
  if selected.isEmpty then [] else relevantDf.filter (isinSelected selected)

/-- The web-flow submit handler (app.py lines 295-310): an empty selection
is rejected with `st.error` and no final table is stored (`none`);
otherwise the classified table is filtered by `isin` and stored. -/
def finalizeApp (selected : List String) (dfClassified : List Row) :
    Option (List Row) :=
  if selected.isEmpty then none
  else some (dfClassified.filter (isinSelected selected))

/-! ## Export (`prepare_and_set_download_file`, `display_export_ui`) -/

/-- `num_chunks = (len(df) - 1) // rows_per_file + 1` (app.py line 93),
with Python's floor division on ints (`Int.fdiv`) and the chunk loop
`range(num_chunks)` ignoring a negative value. -/
def numChunks (totalRows : Nat) (rowsPerFile : Int) : Nat :=
  (((totalRows : Int) - 1).fdiv rowsPerFile + 1).toNat

/-- The chunk loop of app.py lines 94-99: chunk `i` is
`df.iloc[i*rows_per_file : (i+1)*rows_per_file]`. -/
def chunksOf (df : List Row) (rowsPerFile : Int) : List (List Row) :=
  (List.range (numChunks df.length rowsPerFile)).map
    (fun i => (df.drop (i * rowsPerFile.toNat)).take rowsPerFile.toNat)

/-- What ends up in `st.session_state.download_file_bytes`: either one CSV
serialization of the table, or a zip archive of the per-chunk CSVs. -/
inductive ExportContent where
  | single (rows : List Row)
  | zipped (chunks : List (List Row))
deriving DecidableEq

/-- The download artifact stored in session state by
`prepare_and_set_download_file`: content bytes, file name, MIME type. -/
structure DownloadFile where
  content : ExportContent
  name : List Char
  mime : List Char
deriving DecidableEq

/-- `prepare_and_set_download_file` (app.py lines 88-108): batching is
taken only when `do_batch and rows_per_file > 0`; it produces
`{base}.zip` of the chunks, otherwise a single `{base}.csv`. -/
def prepare_and_set_download_file (dfToExport : List Row) (doBatch : Bool)
    (rowsPerFile : Int) (baseFilename : List Char) : DownloadFile :=
  if doBatch ∧ 0 < rowsPerFile then
    { content := ExportContent.zipped (chunksOf dfToExport rowsPerFile)
      name := baseFilename ++ ".zip".toList
      mime := "application/zip".toList }
  else
    { content := ExportContent.single dfToExport
      name := baseFilename ++ ".csv".toList
      mime := "text/csv".toList }

/-- `keyword_for_filename.replace(\x27 \x27, \x27_\x27)` — spaces to
underscores, character by character. -/
def normalizeSpaces (kw : List Char) : List Char :=
  kw.map (fun c => if c = ' ' then '_' else c)

/-- `base_filename = f"filtered_results_{keyword.replace(\x27 \x27, \x27_\x27)}"`
(app.py line 124). -/
def baseFilenameOf (keywordForFilename : List Char) : List Char :=
  "filtered_results_".toList ++ normalizeSpaces keywordForFilename

/-- The local flow's output name before the extension check (local lines
163-165): the user-typed filename, stripped; when blank,
`classified_results_{input_filename}`. The target keyword plays no part. -/
def localBaseName (typed inputFilename : List Char) : List Char :=
  if (pyStrip typed).isEmpty then
    "classified_results_".toList ++ inputFilename
  else pyStrip typed

/-- The local flow's output filename (local lines 163-168): `.csv` is
appended unless the lower-cased name already ends in `.csv`. -/
def localOutputFilename (typed inputFilename : List Char) : List Char :=
  if ".csv".toList <:+ pyLower (localBaseName typed inputFilename) then
    localBaseName typed inputFilename
  else localBaseName typed inputFilename ++ ".csv".toList

/-! ## Lemmas about stripping, lower-casing and substring search -/

lemma pySpace_eq_false_of_toLower {a : Char} (y : Char)
    (hny : pySpaceChars.all (toLowerChar · ≠ y))
    (h : toLowerChar a = y) : pySpace a = false := by
  cases hq : pySpace a with
  | false => rfl
  | true =>
      exfalso
      have hmem : a ∈ pySpaceChars := by
        have hq' := hq
        simp only [pySpace, List.contains_eq_any_beq, List.any_eq_true] at hq'
        rcases hq' with ⟨x, hx, hbeq⟩
        rw [show a = x from (beq_iff_eq.mp hbeq)]
        exact hx
      rw [List.all_eq_true] at hny
      exact absurd h (by simpa using hny a hmem)

lemma cons_infix_dropWhile (q : Char → Bool) (x : Char) (xs l : List Char)
    (h : (x :: xs) <:+: l) (hx : q x = false) : (x :: xs) <:+: l.dropWhile q := by
  induction l with
  | nil => simp at h
  | cons a t ih =>
      rw [List.dropWhile_cons]
      by_cases ha : q a
      · simp only [ha, if_true]
        rcases List.infix_cons_iff.mp h with hpre | hinf
        · rcases hpre with ⟨t', ht'⟩
          rw [List.cons_append] at ht'
          have hxa : x = a := (List.cons.injEq _ _ _ _ ▸ ht').1
          rw [hxa, ha] at hx
          exact absurd hx (by simp)
        · exact ih hinf
      · rw [if_neg ha]
        exact h

lemma pyStrip_isInfix (s : List Char) : pyStrip s <:+: s := by
  have h1 : s.dropWhile pySpace <:+ s := List.dropWhile_suffix pySpace
  have h2 : (s.dropWhile pySpace).reverse.dropWhile pySpace <:+
      (s.dropWhile pySpace).reverse := List.dropWhile_suffix pySpace
  have h3 : pyStrip s <+: s.dropWhile pySpace := by
    apply List.reverse_suffix.mp
    rw [pyStrip, List.reverse_reverse]
    exact h2
  exact h3.isInfix.trans h1.isInfix

lemma infix3_pyStrip {a b c : Char} {l : List Char}
    (ha : pySpace a = false) (hc : pySpace c = false)
    (h : [a, b, c] <:+: l) : [a, b, c] <:+: pyStrip l := by
  have h1 : [a, b, c] <:+: l.dropWhile pySpace :=
    cons_infix_dropWhile pySpace a [b, c] l h ha
  have h2 : [c, b, a] <:+: (l.dropWhile pySpace).reverse := by
    have hr := List.reverse_infix.mpr h1
    simpa using hr
  have h3 : [c, b, a] <:+: (l.dropWhile pySpace).reverse.dropWhile pySpace :=
    cons_infix_dropWhile pySpace c [b, a] _ h2 hc
  have h4 := List.reverse_infix.mpr h3
  simpa [pyStrip] using h4

lemma exists_of_infix_map {f : Char → Char} {p l : List Char}
    (h : p <:+: l.map f) : ∃ m, m <:+: l ∧ m.map f = p := by
  rcases h with ⟨s, t, hst⟩
  rcases List.map_eq_append_iff.mp hst.symm with ⟨l12, l3, hl, hs12, ht⟩
  rcases List.map_eq_append_iff.mp hs12 with ⟨l1, m, hl12, hs, hm⟩
  refine ⟨m, ⟨l1, l3, ?_⟩, hm⟩
  rw [hl, hl12]

lemma map_eq_yes_triple {m : List Char} (h : pyLower m = yesToken) :
    ∃ a b c, m = [a, b, c] ∧ toLowerChar a = 'y' ∧ toLowerChar b = 'e' ∧
      toLowerChar c = 's' := by
  have hlen : m.length = 3 := by
    have hl := congrArg List.length h
    simpa [pyLower, yesToken] using hl
  rcases List.length_eq_three.mp hlen with ⟨a, b, c, rfl⟩
  simp only [pyLower, yesToken, List.map_cons, List.map_nil,
    List.cons.injEq, and_true] at h
  exact ⟨a, b, c, rfl, h.1, h.2.1, h.2.2⟩

/-- C1: for every category classified against a target keyword, the
relevant flag produced from a normal API reply is `true` iff the reply
text contains the token `"yes"` as a case-insensitive substring; any
other reply content yields `false`. -/
theorem claim_C1_relevant_iff_yes (cat : String) (reply : List Char) :
    (classify_category cat (ApiResponse.ok reply)).2.1 = true ↔
      ∃ pre mid suf, reply = pre ++ mid ++ suf ∧ pyLower mid = yesToken := by
  show decide (yesToken <:+: pyLower (pyStrip reply)) = true ↔ _
  rw [decide_eq_true_iff]
  constructor
  · intro h
    have hmapinf : pyLower (pyStrip reply) <:+: pyLower reply :=
      List.IsInfix.map toLowerChar (pyStrip_isInfix reply)
    have h' : yesToken <:+: (reply.map toLowerChar) := h.trans hmapinf
    rcases exists_of_infix_map h' with ⟨mid, hmid, hmap⟩
    rcases hmid with ⟨pre, suf, hps⟩
    exact ⟨pre, mid, suf, hps.symm, hmap⟩
  · rintro ⟨pre, mid, suf, rfl, hmap⟩
    rcases map_eq_yes_triple hmap with ⟨a, b, c, rfl, hy, he, hs⟩
    have ha : pySpace a = false :=
      pySpace_eq_false_of_toLower 'y' (by decide) hy
    have hc : pySpace c = false :=
      pySpace_eq_false_of_toLower 's' (by decide) hs
    have h3 : [a, b, c] <:+: pyStrip (pre ++ [a, b, c] ++ suf) :=
      infix3_pyStrip ha hc ⟨pre, suf, rfl⟩
    have h4 := List.IsInfix.map toLowerChar h3
    simpa [pyLower, yesToken, hy, he, hs] using h4

/-- Witness for C1: the reply `"Yes sir"` is classified relevant. -/
theorem claim_C1_witness :
    (classify_category "cafe" (ApiResponse.ok "Yes sir".toList)).2.1 = true :=
  (claim_C1_relevant_iff_yes "cafe" "Yes sir".toList).mpr
    ⟨[], ['Y', 'e', 's'], [' ', 's', 'i', 'r'], by decide, by decide⟩

/-! ## Merge correctness -/

/-- C2: the derived relevance column is a function of the row's category
alone (rows sharing a category get identical values, namely the result
mapping's entry), and the AI-relevant subset contains exactly the rows of
the table whose category is present and mapped to `true`; rows with a
missing or unmapped category are excluded. -/
theorem claim_C2_merge_correct (results : List (String × Bool)) (df : List Row) :
    (∀ r1 r2 : Row, r1.category = r2.category →
        deriveRelevance results r1 = deriveRelevance results r2) ∧
    (∀ r : Row, ∀ c : String, r.category = some c →
        deriveRelevance results r = results.lookup c) ∧
    (∀ r : Row, r ∈ aiRelevantSubset results df ↔
        r ∈ df ∧ ∃ c, r.category = some c ∧ results.lookup c = some true) := by
  refine ⟨?_, ?_, ?_⟩
  · intro r1 r2 h
    simp [deriveRelevance, h]
  · intro r c h
    simp [deriveRelevance, h]
  · intro r
    simp only [aiRelevantSubset, List.mem_filter, beq_iff_eq, deriveRelevance]
    constructor
    · rintro ⟨hmem, hd⟩
      cases hcat : r.category with
      | none => rw [hcat] at hd; simp at hd
      | some c =>
          rw [hcat] at hd
          exact ⟨hmem, c, rfl, by simpa using hd⟩
    · rintro ⟨hmem, c, hcat, hres⟩
      refine ⟨hmem, ?_⟩
      rw [hcat]
      simpa using hres

/-- Witness for C2: a mapped-to-true row is in the AI-relevant subset. -/
theorem claim_C2_witness :
    (⟨some "cafe", none, none, 0⟩ : Row) ∈
      aiRelevantSubset [("cafe", true), ("bar", false)]
        [⟨some "cafe", none, none, 0⟩, ⟨some "bar", none, none, 1⟩,
          ⟨none, none, none, 2⟩] :=
  ((claim_C2_merge_correct [("cafe", true), ("bar", false)]
        [⟨some "cafe", none, none, 0⟩, ⟨some "bar", none, none, 1⟩,
          ⟨none, none, none, 2⟩]).2.2
      ⟨some "cafe", none, none, 0⟩).mpr
    ⟨by simp, "cafe", rfl, by simp⟩

/-! ## Pre-filter -/

/-- C4: the pre-filter coerces non-numeric or missing rating cells to
zero and keeps exactly the rows meeting every supplied (positive)
threshold; with no thresholds supplied the table passes unchanged; on
ratings `[4.5, "n/a", 3.0, 4.0]` with minimum rating `4.0` exactly the
`4.5` and `4.0` rows survive. -/
theorem claim_C4_prefilter (minRating minRatingCount : ℚ) (df : List Row) :
    (∀ r : Row, r ∈ preFilter minRating minRatingCount df ↔
        r ∈ df ∧ (0 < minRating → minRating ≤ coerceNum r.rating) ∧
          (0 < minRatingCount → minRatingCount ≤ coerceNum r.ratingCount)) ∧
    (¬ 0 < minRating → ¬ 0 < minRatingCount →
        preFilter minRating minRatingCount df = df) ∧
    preFilter 4 0
        [⟨none, some (9 / 2), some 0, 1⟩, ⟨none, none, some 0, 2⟩,
          ⟨none, some 3, some 0, 3⟩, ⟨none, some 4, some 0, 4⟩] =
      [⟨none, some (9 / 2), some 0, 1⟩, ⟨none, some 4, some 0, 4⟩] := by
  refine ⟨?_, ?_, ?_⟩
  · intro r
    by_cases h1 : 0 < minRating <;> by_cases h2 : 0 < minRatingCount <;>
      simp [preFilter, h1, h2, List.mem_filter, and_assoc]
    tauto
  · intro h1 h2
    simp [preFilter, h1, h2]
  · norm_num [preFilter, coerceNum, List.filter]

/-- Witness for C4: the rating-4.5 row passes the minimum-rating-4 filter. -/
theorem claim_C4_witness :
    (⟨none, some (9 / 2), some 0, 1⟩ : Row) ∈ preFilter 4 0
      [⟨none, some (9 / 2), some 0, 1⟩, ⟨none, none, some 0, 2⟩,
        ⟨none, some 3, some 0, 3⟩, ⟨none, some 4, some 0, 4⟩] :=
  ((claim_C4_prefilter 4 0
        [⟨none, some (9 / 2), some 0, 1⟩, ⟨none, none, some 0, 2⟩,
          ⟨none, some 3, some 0, 3⟩, ⟨none, some 4, some 0, 4⟩]).1
      ⟨none, some (9 / 2), some 0, 1⟩).mpr
    ⟨by simp, fun _ => by norm_num [coerceNum], fun h => absurd h (by norm_num)⟩

/-! ## Classification result mapping -/

lemma lookup_map_pair (categories : List String) (f : String → Bool) (c : String) :
    (categories.map (fun x => (x, f x))).lookup c =
      if c ∈ categories then some (f c) else none := by
  induction categories with
  | nil => simp
  | cons a t ih =>
      simp only [List.map_cons, List.lookup_cons]
      by_cases hac : c = a
      · subst hac
        simp
      · have hbeq : (c == a) = false := beq_eq_false_iff_ne.mpr hac
        simp [hbeq, ih, List.mem_cons, hac]

lemma lookup_run_classification (categories : List String)
    (respond : String → ApiResponse) (c : String) :
    (run_classification categories respond).lookup c =
      if c ∈ categories then some (classify_category c (respond c)).2.1
      else none :=
  lookup_map_pair categories (fun x => (classify_category x (respond x)).2.1) c

/-- Counterexample to C5: the results mapping built by the classification
stage keeps only the boolean, so a category whose call failed with an
API-level error is indistinguishable in the ClassificationResult from a
category the model genuinely answered `"no"` for — the two runs produce
identical mappings, and no raw reply or status is retained in them. -/
theorem claim_C5_counterexample :
    run_classification ["cafe"] (fun _ => ApiResponse.apiError "boom".toList) =
      run_classification ["cafe"] (fun _ => ApiResponse.ok "no".toList) := by
  rfl

/-- C5 amended: the classification stage produces a mapping from every
classified category to only the `relevant` boolean of `classify_category`;
the raw-reply/status marker (`"error_api"` for an API-level error payload,
`"error"` for a transport failure) exists in `classify_category`'s return
triple but is discarded when the results mapping is built. -/
theorem claim_C5_amended (categories : List String)
    (respond : String → ApiResponse) (c : String) :
    ((run_classification categories respond).lookup c =
        if c ∈ categories then some (classify_category c (respond c)).2.1
        else none) ∧
    (∀ m, (classify_category c (ApiResponse.apiError m)).2.2 =
        "error_api".toList) ∧
    (∀ m, (classify_category c (ApiResponse.transportError m)).2.2 =
        "error".toList) :=
  ⟨lookup_run_classification categories respond c, fun _ => rfl, fun _ => rfl⟩

/-- C6: a category whose request fails with an API-level error payload or
a transport error is recorded as `relevant = false` with the marker of the
corresponding error kind, and the recorded result of any category depends
only on that category's own response — a failure elsewhere leaves it
unaffected and never aborts the batch. -/
theorem claim_C6_error_isolation (cat : String) (m : List Char)
    (categories : List String) (respond respond' : String → ApiResponse)
    (c : String) (hc : respond c = respond' c) :
    classify_category cat (ApiResponse.apiError m) =
        (cat, false, "error_api".toList) ∧
    classify_category cat (ApiResponse.transportError m) =
        (cat, false, "error".toList) ∧
    (run_classification categories respond).lookup c =
      (run_classification categories respond').lookup c := by
  refine ⟨rfl, rfl, ?_⟩
  rw [lookup_run_classification, lookup_run_classification, hc]

/-- Witness for C6: failing `"bar"` does not change `"cafe"`'s entry. -/
theorem claim_C6_witness :
    (run_classification ["cafe", "bar"]
        (fun c => if c = "bar" then ApiResponse.apiError "boom".toList
          else ApiResponse.ok "yes".toList)).lookup "cafe" =
      (run_classification ["cafe", "bar"]
        (fun c => if c = "bar" then ApiResponse.ok "no".toList
          else ApiResponse.ok "yes".toList)).lookup "cafe" :=
  (claim_C6_error_isolation "x" [] ["cafe", "bar"]
      (fun c => if c = "bar" then ApiResponse.apiError "boom".toList
        else ApiResponse.ok "yes".toList)
      (fun c => if c = "bar" then ApiResponse.ok "no".toList
        else ApiResponse.ok "yes".toList)
      "cafe" (by simp)).2.2

/-! ## Manual selection initialization -/

/-- Counterexample to C7: the local flow's `CategorySelector` initializes
every candidate checkbox to `False` (`tk.BooleanVar(value=False)`), so a
candidate category starts unkept, not kept. -/
theorem claim_C7_counterexample :
    (categorySelectorInit ["cafe"]).lookup "cafe" = some false ∧
      (categorySelectorInit ["cafe"]).lookup "cafe" ≠ some true := by
  exact ⟨rfl, by simp [categorySelectorInit]⟩

/-- C7 amended: in the web flow the refinement checkboxes of every
candidate category start `kept = true` (the `session_state.get` default
after the `cb_` keys were cleared), while in the local desktop flow
`CategorySelector` starts every candidate at `kept = false` until the
user acts. -/
theorem claim_C7_amended (categories : List String) (cat : String)
    (hc : cat ∈ categories) :
    checkboxInit freshSessionState cat = true ∧
      (categorySelectorInit categories).lookup cat = some false := by
  constructor
  · rfl
  · have h := lookup_map_pair categories (fun _ => false) cat
    simpa [categorySelectorInit, hc] using h

/-- Witness for C7 amended, at the one-candidate list `["cafe"]`. -/
theorem claim_C7_witness :
    checkboxInit freshSessionState "cafe" = true ∧
      (categorySelectorInit ["cafe"]).lookup "cafe" = some false :=
  claim_C7_amended ["cafe"] "cafe" (by simp)

/-! ## Finalization with an empty selection -/

/-- Counterexample to C8: the web flow's submit handler rejects an empty
selection with an error message and stores no final table at all — it
does not finalize to an explicit empty table, so the export does not
proceed on an empty table there. -/
theorem claim_C8_counterexample :
    finalizeApp [] [⟨some "cafe", none, none, 0⟩] ≠ some [] ∧
      finalizeApp [] [⟨some "cafe", none, none, 0⟩] = none :=
  ⟨fun h => by simp [finalizeApp] at h, rfl⟩

/-- C8 amended: in the local flow, zero kept categories yields an explicit
empty final table (surfaced with a warning) and the unconditional
`to_csv` export then runs on that empty table; the web flow instead
rejects an empty selection with an error message, producing no final
table. Neither flow crashes. -/
theorem claim_C8_amended (relevantDf dfClassified : List Row) :
    finalizeLocal [] relevantDf = [] ∧ finalizeApp [] dfClassified = none :=
  ⟨rfl, rfl⟩

/-! ## Export naming -/

/-- Counterexample to C9: the exported base filename keeps the keyword's
original letter case — for the keyword `"Spa Clinic"` it differs from its
own lower-casing, so it is not lower-cased as claimed. -/
theorem claim_C9_counterexample :
    baseFilenameOf "Spa Clinic".toList ≠
      pyLower (baseFilenameOf "Spa Clinic".toList) := by
  decide

/-- C9 amended: in the web flow the base filename is `filtered_results_`
followed by the keyword with spaces replaced by underscores and its case
preserved (no lower-casing), with extension `.zip` when the batch path is
taken and `.csv` otherwise; in the local flow the export name is not
derived from the keyword at all — it is the user-typed name, or
`classified_results_` plus the input filename when blank, always carrying
a `.csv` extension. -/
theorem claim_C9_amended (kw : List Char) (df : List Row) (b : Int)
    (hb : 0 < b) :
    baseFilenameOf kw = "filtered_results_".toList ++
        kw.map (fun c => if c = ' ' then '_' else c) ∧
    (prepare_and_set_download_file df true b (baseFilenameOf kw)).name =
        baseFilenameOf kw ++ ".zip".toList ∧
    (∀ batch : Bool, ∀ rpf : Int, ¬ (batch = true ∧ 0 < rpf) →
        (prepare_and_set_download_file df batch rpf (baseFilenameOf kw)).name =
          baseFilenameOf kw ++ ".csv".toList) ∧
    (∀ typed inputFn : List Char,
        ".csv".toList <:+ pyLower (localOutputFilename typed inputFn)) ∧
    (∀ typed inputFn : List Char, pyStrip typed = [] →
        "classified_results_".toList <+: localOutputFilename typed inputFn) := by
  refine ⟨rfl, ?_, ?_, ?_, ?_⟩
  · simp [prepare_and_set_download_file, hb]
  · intro batch rpf h
    unfold prepare_and_set_download_file
    rw [if_neg h]
  · intro typed inputFn
    unfold localOutputFilename
    by_cases hcsv : ".csv".toList <:+ pyLower (localBaseName typed inputFn)
    · rw [if_pos hcsv]
      exact hcsv
    · rw [if_neg hcsv]
      simp only [pyLower, List.map_append]
      have hlow : List.map toLowerChar ".csv".toList = ".csv".toList := by
        decide
      rw [hlow]
      exact List.suffix_append _ _
  · intro typed inputFn h
    have hbase : localBaseName typed inputFn =
        "classified_results_".toList ++ inputFn := by
      simp [localBaseName, h]
    unfold localOutputFilename
    by_cases hcsv : ".csv".toList <:+ pyLower (localBaseName typed inputFn)
    · rw [if_pos hcsv, hbase]
      exact List.prefix_append _ _
    · rw [if_neg hcsv, hbase]
      exact (List.prefix_append _ _).trans (List.prefix_append _ _)

/-- Witness for C9 amended: keyword `"Spa Clinic"`, batch size 2. -/
theorem claim_C9_witness :
    (prepare_and_set_download_file [] true 2
        (baseFilenameOf "Spa Clinic".toList)).name =
      baseFilenameOf "Spa Clinic".toList ++ ".zip".toList :=
  (claim_C9_amended "Spa Clinic".toList [] 2 (by decide)).2.1

/-! ## Export fallback on a non-positive batch size -/

/-- C10: when batching is requested but the rows-per-batch value is zero
or negative, `prepare_and_set_download_file` silently takes the
single-file branch: one unsplit CSV artifact, `.csv` name, `text/csv`
MIME type. -/
theorem claim_C10_nonpositive_fallback (df : List Row) (rpf : Int)
    (base : List Char) (h : rpf ≤ 0) :
    prepare_and_set_download_file df true rpf base =
      { content := ExportContent.single df
        name := base ++ ".csv".toList
        mime := "text/csv".toList } := by
  unfold prepare_and_set_download_file
  rw [if_neg]
  rintro ⟨-, h2⟩
  exact absurd h2 (not_lt.mpr h)

/-- Witness for C10: batch size `-3` falls back to a single CSV. -/
theorem claim_C10_witness :
    prepare_and_set_download_file [] true (-3) "f".toList =
      { content := ExportContent.single []
        name := "f".toList ++ ".csv".toList
        mime := "text/csv".toList } :=
  claim_C10_nonpositive_fallback [] (-3) "f".toList (by decide)

/-! ## Batching arithmetic and chunk structure -/

lemma fdiv_neg_one (n : Nat) : Int.fdiv (-1) ((n + 1 : Nat) : Int) = -1 := by
  show Int.negSucc (0 / (n + 1)) = -1
  rw [Nat.zero_div]
  rfl

lemma numChunks_zero (b : Nat) (hb : 0 < b) : numChunks 0 (b : Int) = 0 := by
  obtain ⟨n, rfl⟩ : ∃ n, b = n + 1 := ⟨b - 1, (Nat.succ_pred_eq_of_pos hb).symm⟩
  show (((0 : Int) - 1).fdiv ((n + 1 : Nat) : Int) + 1).toNat = 0
  have h0 : ((0 : Int) - 1) = -1 := by norm_num
  rw [h0, fdiv_neg_one n]
  norm_num

lemma numChunks_succ (n b : Nat) : numChunks (n + 1) (b : Int) = n / b + 1 := by
  show ((((n + 1 : Nat) : Int) - 1).fdiv (b : Int) + 1).toNat = n / b + 1
  have h1 : ((n + 1 : Nat) : Int) - 1 = (n : Int) := by push_cast; ring
  rw [h1, ← Int.ofNat_fdiv]
  have h2 : ((n / b : Nat) : Int) + 1 = ((n / b + 1 : Nat) : Int) := by
    push_cast; ring
  rw [h2, Int.toNat_ofNat]

lemma numChunks_eq_ceil (R b : Nat) (hb : 0 < b) :
    numChunks R (b : Int) = (R + b - 1) / b := by
  cases R with
  | zero =>
      rw [numChunks_zero b hb]
      symm
      exact Nat.div_eq_of_lt (by omega)
  | succ n =>
      rw [numChunks_succ n b]
      have h1 : n + 1 + b - 1 = n + b := by omega
      rw [h1, Nat.add_div_right n hb]

lemma chunksOf_nil (b : Nat) (hb : 0 < b) : chunksOf [] (b : Int) = [] := by
  simp [chunksOf, numChunks_zero b hb]

lemma chunksOf_cons (b : Nat) (hb : 0 < b) (l : List Row) (hl : l ≠ []) :
    chunksOf l (b : Int) = l.take b :: chunksOf (l.drop b) (b : Int) := by
  obtain ⟨x, xs, rfl⟩ := List.exists_cons_of_ne_nil hl
  unfold chunksOf
  simp only [Int.toNat_ofNat, List.length_cons]
  rw [numChunks_succ xs.length b, List.range_succ_eq_map, List.map_cons,
    List.map_map]
  congr 1
  · simp
  · by_cases hcase : b ≤ xs.length
    · have h2 : numChunks ((x :: xs).drop b).length (b : Int) = xs.length / b := by
        have hlen : ((x :: xs).drop b).length = xs.length + 1 - b := by simp
        rw [hlen]
        obtain ⟨m, hm⟩ : ∃ m, xs.length + 1 - b = m + 1 :=
          ⟨xs.length - b, by omega⟩
        rw [hm, numChunks_succ m b]
        have hmval : m = xs.length - b := by omega
        rw [hmval, ← Nat.div_eq_sub_div hb hcase]
      rw [h2]
      apply List.map_congr_left
      intro i hi
      simp only [Function.comp_apply, Int.toNat_ofNat]
      rw [List.drop_drop]
      congr 2
      rw [Nat.succ_mul]
      omega
    · have hdrop : (x :: xs).drop b = [] :=
        List.drop_eq_nil_of_le (by simp; omega)
      have h0 : xs.length / b = 0 := Nat.div_eq_of_lt (by omega)
      rw [hdrop, h0]
      simp [numChunks_zero b hb]

lemma chunksOf_flatten_aux (b : Nat) (hb : 0 < b) :
    ∀ (n : Nat) (l : List Row), l.length ≤ n →
      (chunksOf l (b : Int)).flatten = l := by
  intro n
  induction n with
  | zero =>
      intro l hl
      have : l = [] := List.length_eq_zero.mp (Nat.le_zero.mp hl)
      rw [this, chunksOf_nil b hb]
      rfl
  | succ n ih =>
      intro l hl
      rcases eq_or_ne l [] with rfl | hne
      · rw [chunksOf_nil b hb]; rfl
      · rw [chunksOf_cons b hb l hne, List.flatten_cons,
          ih (l.drop b) (by simp; omega)]
        exact List.take_append_drop b l

lemma chunksOf_flatten (b : Nat) (hb : 0 < b) (l : List Row) :
    (chunksOf l (b : Int)).flatten = l :=
  chunksOf_flatten_aux b hb l.length l (Nat.le_refl _)

lemma chunksOf_get (df : List Row) (B : Nat) (i : Nat)
    (hi : i < (chunksOf df (B : Int)).length) :
    (chunksOf df (B : Int)).get ⟨i, hi⟩ = (df.drop (i * B)).take B := by
  simp [chunksOf]

/-- C3: for a table of `R` rows and positive batch size `B`, the export
loop produces exactly `ceil(R/B)` chunks; their concatenation is the
original table (so each row appears in exactly one chunk and order is
preserved), the chunk row counts sum to `R`, chunk `i` (0-indexed) has
`min B (R - i*B)` rows, and the `j`-th row of chunk `i` is row `i*B + j`
of the table. -/
theorem claim_C3_batching (df : List Row) (B : Nat) (hB : 0 < B) :
    (chunksOf df (B : Int)).length = (df.length + B - 1) / B ∧
    (chunksOf df (B : Int)).flatten = df ∧
    ((chunksOf df (B : Int)).map List.length).sum = df.length ∧
    (∀ i : Nat, ∀ hi : i < (chunksOf df (B : Int)).length,
        ((chunksOf df (B : Int)).get ⟨i, hi⟩).length =
          min B (df.length - i * B)) ∧
    (∀ i : Nat, ∀ hi : i < (chunksOf df (B : Int)).length, ∀ j : Nat,
        ((chunksOf df (B : Int)).get ⟨i, hi⟩)[j]? =
          if j < B then df[i * B + j]? else none) := by
  refine ⟨?_, chunksOf_flatten B hB df, ?_, ?_, ?_⟩
  · simp [chunksOf, numChunks_eq_ceil df.length B hB]
  · have h := congrArg List.length (chunksOf_flatten B hB df)
    simpa using h
  · intro i hi
    rw [chunksOf_get df B i hi]
    simp
  · intro i hi j
    rw [chunksOf_get df B i hi]
    by_cases hj : j < B
    · rw [if_pos hj, List.getElem?_take_of_lt hj, List.getElem?_drop]
    · rw [if_neg hj]
      exact List.getElem?_eq_none (by simp; omega)

/-- Witness for C3: five rows at batch size two concatenate back. -/
theorem claim_C3_witness :
    (chunksOf
        [⟨none, none, none, 1⟩, ⟨none, none, none, 2⟩, ⟨none, none, none, 3⟩,
          ⟨none, none, none, 4⟩, ⟨none, none, none, 5⟩] ((2 : Nat) : Int)).flatten =
      [⟨none, none, none, 1⟩, ⟨none, none, none, 2⟩, ⟨none, none, none, 3⟩,
        ⟨none, none, none, 4⟩, ⟨none, none, none, 5⟩] :=
  (claim_C3_batching
      [⟨none, none, none, 1⟩, ⟨none, none, none, 2⟩, ⟨none, none, none, 3⟩,
        ⟨none, none, none, 4⟩, ⟨none, none, none, 5⟩] 2 (by decide)).2.1

end GMapsCleaner
